import Mathlib

/-!
Verification of the process-supervision and progress-parsing core of the
ffmpeg-suite-rs repository (crate ffmpeg-common, files src/process.rs,
src/types.rs, src/error.rs).

Strings are modelled as lists of characters.  Rust f64 values are modelled
exactly: a parsed decimal numeral is represented by the rational number it
denotes, together with the special values inf, -inf and NaN.  All quantities
appearing in the claims (25.0, 28.0, 2097.2 * 1000.0 = 2097200.0, 1.00) are
exactly representable in IEEE double precision arithmetic as well, so the
exact model and IEEE evaluation agree on every value any claim mentions.
Machine integers (u64) are modelled as Nat with explicit bounds and, where
the code can overflow, reduction modulo 2^64 (Rust release-mode wrapping).
std::time::Duration is modelled as its total number of nanoseconds.
-/

set_option allowUnsafeReducibility true

attribute [semireducible] Rat.mul Rat.inv Rat.ofScientific Rat.add Rat.sub

abbrev Str := List Char

/-- Unicode White_Space property, as used by Rust's char::is_whitespace
(str::split_whitespace splits on these). -/
def isWsChar (c : Char) : Bool :=
  c.toNat = 0x09 ∨ c.toNat = 0x0A ∨ c.toNat = 0x0B ∨ c.toNat = 0x0C ∨
  c.toNat = 0x0D ∨ c.toNat = 0x20 ∨ c.toNat = 0x85 ∨ c.toNat = 0xA0 ∨
  c.toNat = 0x1680 ∨ (0x2000 ≤ c.toNat ∧ c.toNat ≤ 0x200A) ∨
  c.toNat = 0x2028 ∨ c.toNat = 0x2029 ∨ c.toNat = 0x202F ∨
  c.toNat = 0x205F ∨ c.toNat = 0x3000

/-- Worker for splitWs: first argument is the current (reversed) token. -/
def splitWsGo : Str → Str → List Str
  | acc, [] =>
    match acc with
    | [] => []
    | _ => [acc.reverse]
  | acc, c :: r =>
    if isWsChar c then
      match acc with
      | [] => splitWsGo [] r
      | _ => acc.reverse :: splitWsGo [] r
    else splitWsGo (c :: acc) r

/-- Model of Rust str::split_whitespace: maximal runs of non-whitespace
characters, in order; no empty tokens. -/
def splitWs (s : Str) : List Str := splitWsGo [] s

/-- Model of Rust str::split_once(sep): split at the first occurrence of sep;
None if sep does not occur. -/
def splitOnce (sep : Char) : Str → Option (Str × Str)
  | [] => none
  | c :: r =>
    if c = sep then some ([], r)
    else (splitOnce sep r).map (fun p => (c :: p.1, p.2))

/-- Model of Rust str::split(sep).collect::<Vec<_>>():
every occurrence of sep is a cut point, empty pieces are kept,
the empty string yields one empty piece. -/
def splitOnChar (sep : Char) : Str → List Str
  | [] => [[]]
  | c :: r =>
    if c = sep then [] :: splitOnChar sep r
    else
      match splitOnChar sep r with
      | t :: ts => (c :: t) :: ts
      | [] => [[c]]

/-- Model of Rust str::strip_suffix. -/
def stripSuffix (suf s : Str) : Option Str :=
  if suf.isSuffixOf s then some (s.take (s.length - suf.length)) else none

/-- Model of Rust str::contains(needle) (substring search). -/
def containsSub (n : Str) : Str → Bool
  | [] => n.isEmpty
  | c :: r => n.isPrefixOf (c :: r) || containsSub n r

def isDigitCh (c : Char) : Bool := 48 ≤ c.toNat ∧ c.toNat ≤ 57

def digitVal (c : Char) : Nat := c.toNat - 48

def digitChar (d : Nat) : Char := Char.ofNat (48 + d)

/-- Value of a big-endian decimal digit string. -/
def digitsToNat (s : Str) : Nat := s.foldl (fun a c => a * 10 + digitVal c) 0

/-- Model of Rust u64::from_str: an optional leading '+', then one or more
ASCII digits; rejects any other character and values not fitting in 64 bits. -/
def parseU64 (s : Str) : Option Nat :=
  let s2 : Str :=
    match s with
    | c :: r => if c = '+' then r else s
    | [] => s
  if s2 ≠ [] ∧ s2.all isDigitCh then
    if digitsToNat s2 < 2 ^ 64 then some (digitsToNat s2) else none
  else none

/-- Exact model of an IEEE f64 value: finite values carry the exact rational
denoted by the parsed numeral (see the header note). -/
inductive F64
  | finite (q : ℚ)
  | inf
  | negInf
  | nan
deriving DecidableEq

/-- Case-insensitive (ASCII) string comparison, for inf/infinity/NaN forms. -/
def lowerEq (s t : Str) : Bool := s.map Char.toLower == t.map Char.toLower

/-- Optional exponent part of a float literal: empty, or e/E, optional sign,
one or more digits. -/
def parseExp : Str → Option ℤ
  | [] => some 0
  | c :: r =>
    if c = 'e' ∨ c = 'E' then
      let signed : Bool × Str :=
        match r with
        | '-' :: t => (true, t)
        | '+' :: t => (false, t)
        | _ => (false, r)
      if signed.2 ≠ [] ∧ signed.2.all isDigitCh then
        some (if signed.1 then -(digitsToNat signed.2 : ℤ) else (digitsToNat signed.2 : ℤ))
      else none
    else none

/-- Unsigned decimal part of a float literal: digits, an optional point with
further digits (at least one digit overall), an optional exponent. -/
def parseUDec (s : Str) : Option ℚ :=
  let ip := s.takeWhile isDigitCh
  let r1 := s.dropWhile isDigitCh
  match r1 with
  | '.' :: r2 =>
    let fp := r2.takeWhile isDigitCh
    let r3 := r2.dropWhile isDigitCh
    if ip = [] ∧ fp = [] then none
    else
      (parseExp r3).map
        (fun e =>
          ((digitsToNat ip : ℚ) + (digitsToNat fp : ℚ) / (10 : ℚ) ^ fp.length) * (10 : ℚ) ^ e)
  | _ =>
    if ip = [] then none
    else (parseExp r1).map (fun e => (digitsToNat ip : ℚ) * (10 : ℚ) ^ e)

/-- Model of Rust f64::from_str: optional sign, then inf/infinity/nan
(ASCII case-insensitive) or a decimal numeral with optional fraction and
exponent.  Finite results are exact rationals. -/
def parseF64 (s : Str) : Option F64 :=
  let signed : Bool × Str :=
    match s with
    | '-' :: r => (true, r)
    | '+' :: r => (false, r)
    | _ => (false, s)
  if lowerEq signed.2 ("inf".data) ∨ lowerEq signed.2 ("infinity".data) then
    some (if signed.1 then F64.negInf else F64.inf)
  else if lowerEq signed.2 ("nan".data) then some F64.nan
  else (parseUDec signed.2).map (fun q => F64.finite (if signed.1 then -q else q))

/-- Multiplication of an f64 by a positive rational constant (the progress
decoder multiplies bitrates by 1000.0). -/
def F64.mulK : F64 → ℚ → F64
  | .finite q, k => .finite (q * k)
  | .inf, k => if 0 < k then .inf else if k < 0 then .negInf else .nan
  | .negInf, k => if 0 < k then .negInf else if k < 0 then .inf else .nan
  | .nan, _ => .nan

example : parseF64 ("25.0".data) = some (F64.finite 25) := by decide
example : parseF64 ("2097.2".data) = some (F64.finite (10486 / 5)) := by decide
example : parseF64 ("-5".data) = some (F64.finite (-5)) := by decide
example : parseF64 ("NaN".data) = some F64.nan := by decide
example : parseF64 ("abc".data) = none := by decide
example : parseU64 ("100".data) = some 100 := by decide
example : parseU64 ("".data) = none := by decide
example : parseU64 ("abc".data) = none := by decide
example : splitWs ("frame=  100 x".data) = ["frame=".data, "100".data, "x".data] := by decide
example : splitOnce '=' ("frame=".data) = some ("frame".data, "".data) := by decide
example : containsSub ("frame=".data) ("a frame= b".data) = true := by decide
example : containsSub ("frame=".data) ("out of frames".data) = false := by decide
example : splitOnChar ':' ("00:00:04.00".data) = ["00".data, "00".data, "04.00".data] := by decide
example : stripSuffix ("kB".data) ("1024kB".data) = some ("1024".data) := by decide

/-! ## types.rs: Duration and its FFmpeg-format parser

std::time::Duration is modelled by its total nanosecond count.
Duration::from_ffmpeg_format (types.rs lines 50-82) returns Result<Duration>,
but it can also panic: the plain-seconds branch feeds any string that parses
as an f64 into std::time::Duration::from_secs_f64, which panics when the value
is negative, not finite, or at least 2^64 seconds.  The model makes that
control path explicit as a third constructor. -/

inductive DurResult
  | ok (nanos : Nat)
  | err (msg : Str)
  | panicked
deriving DecidableEq

/-- Model of std::time::Duration::from_secs_f64: none models a panic
(negative, NaN, infinite, or ≥ 2^64 seconds); otherwise the value rounded
to nanoseconds. -/
def from_secs_f64 : F64 → Option Nat
  | .finite q =>
    if 0 ≤ q ∧ q < (2 : ℚ) ^ 64 then some (Rat.floor (q * 1000000000 + 1 / 2)).toNat
    else none
  | _ => none

/-- Model of Duration::from_ffmpeg_format (types.rs lines 50-82).
First tries the plain-seconds f64 form (panicking inside from_secs_f64 on
negative/NaN/infinite values), then the HH:MM:SS[.MS] form.  The u64
arithmetic building total_millis wraps modulo 2^64 (Rust release-mode
semantics); Duration::from_millis never overflows. -/
def from_ffmpeg_format (s : Str) : DurResult :=
  match parseF64 s with
  | some f =>
    match from_secs_f64 f with
    | some n => .ok n
    | none => .panicked
  | none =>
    match splitOnChar ':' s with
    | [p0, p1, p2] =>
      match parseU64 p0 with
      | none => .err ("Invalid hours: ".data ++ p0)
      | some hours =>
        match parseU64 p1 with
        | none => .err ("Invalid minutes: ".data ++ p1)
        | some minutes =>
          if p2.contains '.' then
            match splitOnChar '.' p2 with
            | s0 :: s1 :: _ =>
              match parseU64 s0 with
              | none => .err ("Invalid seconds: ".data ++ s0)
              | some secs =>
                match parseU64 s1 with
                | none => .err ("Invalid milliseconds: ".data ++ s1)
                | some ms =>
                  .ok ((((hours * 3600 + minutes * 60 + secs) * 1000 + ms) % 2 ^ 64) * 1000000)
            | _ => .err ("Invalid seconds: ".data)
          else
            match parseU64 p2 with
            | none => .err ("Invalid seconds: ".data ++ p2)
            | some secs =>
              .ok ((((hours * 3600 + minutes * 60 + secs) * 1000) % 2 ^ 64) * 1000000)
    | _ => .err ("Invalid time format: ".data ++ s)

example : from_ffmpeg_format ("00:00:04.00".data) = .ok 4000000000 := by decide
example : from_ffmpeg_format ("10".data) = .ok 10000000000 := by decide
example : from_ffmpeg_format ("01:30:00".data) = .ok 5400000000000 := by decide
example : from_ffmpeg_format ("00:00:30.500".data) = .ok 30500000000 := by decide
example : from_ffmpeg_format ("-5".data) = .panicked := by decide
example : from_ffmpeg_format ("abc".data) =
    .err ("Invalid time format: abc".data) := by decide

/-! ## process.rs: Progress and parse_line -/

/-- Model of struct Progress (process.rs lines 271-287): a sparse snapshot;
time holds the nanosecond count of the parsed std Duration. -/
structure Progress where
  frame : Option Nat
  fps : Option F64
  q : Option F64
  size : Option Nat
  time : Option Nat
  bitrate : Option F64
  speed : Option F64
deriving DecidableEq

def emptyProgress : Progress := ⟨none, none, none, none, none, none, none⟩

def frameMarker : Str := "frame=".data
def frameKey : Str := "frame".data
def fpsKey : Str := "fps".data
def qKey : Str := "q".data
def sizeKey : Str := "size".data
def timeKey : Str := "time".data
def bitrateKey : Str := "bitrate".data
def speedKey : Str := "speed".data
def kBSuffix : Str := "kB".data
def kbitsSuffix : Str := "kbits/s".data

/-- Value conversion for the size field: kibibyte count times 1024,
wrapping modulo 2^64 (u64 multiplication, Rust release-mode semantics). -/
def sizeValue (kb : Str) : Option Nat :=
  (parseU64 kb).map (fun k => k * 1024 % 2 ^ 64)

/-- Processing of one whitespace-separated token by the loop in
Progress::parse_line (process.rs lines 307-340).  An unparseable value for
frame/fps/q assigns None to the field; for size/bitrate/speed the assignment
only happens when the unit suffix is present; a time value on which
Duration::from_ffmpeg_format panics aborts the whole call (Except.error). -/
def applyToken (p : Progress) (tok : Str) : Except Unit Progress :=
  match splitOnce '=' tok with
  | none => .ok p
  | some (key, value) =>
    if key = frameKey then .ok { p with frame := parseU64 value }
    else if key = fpsKey then .ok { p with fps := parseF64 value }
    else if key = qKey then .ok { p with q := parseF64 value }
    else if key = sizeKey then
      match stripSuffix kBSuffix value with
      | some kb => .ok { p with size := sizeValue kb }
      | none => .ok p
    else if key = timeKey then
      match from_ffmpeg_format value with
      | .ok d => .ok { p with time := some d }
      | .err _ => .ok p
      | .panicked => .error ()
    else if key = bitrateKey then
      match stripSuffix kbitsSuffix value with
      | some kb => .ok { p with bitrate := (parseF64 kb).map (fun f => f.mulK 1000) }
      | none => .ok p
    else if key = speedKey then
      match stripSuffix ("x".data) value with
      | some sp => .ok { p with speed := parseF64 sp }
      | none => .ok p
    else .ok p

def foldTokens : Progress → List Str → Except Unit Progress
  | p, [] => .ok p
  | p, t :: ts =>
    match applyToken p t with
    | .ok p2 => foldTokens p2 ts
    | .error e => .error e

/-- Result of Progress::parse_line: ret r models an ordinary return of
Option<Progress>; panicked models the panic escaping from
Duration::from_secs_f64 through the time branch. -/
inductive ParseLineResult
  | panicked
  | ret (r : Option Progress)
deriving DecidableEq

/-- Model of Progress::parse_line (process.rs lines 291-343): a line without
the substring frame= yields None; otherwise every whitespace token is split
at its first '=' and folded into an initially-empty snapshot. -/
def Progress.parse_line (line : Str) : ParseLineResult :=
  if containsSub frameMarker line then
    match foldTokens emptyProgress (splitWs line) with
    | .ok p => .ret (some p)
    | .error _ => .panicked
  else .ret none

/-- Result of the stream_progress loop: the list of snapshots delivered to
the callback, in line order; panicked d means the reader task panicked after
delivering d. -/
inductive StreamResult
  | done (delivered : List Progress)
  | panicked (delivered : List Progress)
deriving DecidableEq

/-- Model of stream_progress (process.rs lines 350-363): reads lines in
order, invokes the callback exactly on lines whose parse yields a snapshot,
silently skips lines that yield none. -/
def streamProgress : List Str → StreamResult
  | [] => .done []
  | l :: rest =>
    match Progress.parse_line l with
    | .panicked => .panicked []
    | .ret none => streamProgress rest
    | .ret (some p) =>
      match streamProgress rest with
      | .done ds => .done (p :: ds)
      | .panicked ds => .panicked (p :: ds)

example :
    Progress.parse_line ("frame=abc fps=25.0".data) =
      .ret (some ⟨none, some (F64.finite 25), none, none, none, none, none⟩) := by decide
example : Progress.parse_line ("configuration: abc".data) = .ret none := by decide
example : Progress.parse_line ("frame=1 time=-5".data) = .panicked := by decide
example :
    Progress.parse_line ("frame=12 size=10kB".data) =
      .ret (some ⟨some 12, none, none, some 10240, none, none, none⟩) := by decide

/-- The exact progress line of test_progress_parsing (process.rs line 478):
padding spaces separate frame= and size= from their values. -/
def testLine : Str :=
  ("frame=  100 fps=25.0 q=28.0 size=    1024kB" ++
   " time=00:00:04.00 bitrate=2097.2kbits/s speed=1.00x").data

example :
    Progress.parse_line testLine =
      .ret (some ⟨none, some (F64.finite 25), some (F64.finite 28), none,
        some 4000000000, some (F64.finite 2097200), some (F64.finite 1)⟩) := by decide

/-! ## error.rs and process.rs: process supervision model

ExitStatus models std::process::ExitStatus (normal exit code, or death by
signal).  Durations in the process configuration are abstract time units
(Nat).  The Multiple and WithContext error variants of error.rs are omitted:
no code path modelled here constructs them. -/

inductive ExitStatus
  | exited (code : Int)
  | signaled (sig : Nat)
deriving DecidableEq

/-- Model of ExitStatus::success: a normal exit with code zero. -/
def ExitStatus.success : ExitStatus → Bool
  | .exited 0 => true
  | _ => false

/-- Bytes are modelled as Nat values below 256 where it matters. -/
abbrev Bytes := List Nat

def replacementChar : Char := Char.ofNat 0xFFFD

/-- Model of String::from_utf8_lossy: standard UTF-8 decoding where each
maximal invalid subpart is replaced by one U+FFFD. -/
def utf8Lossy : Bytes → List Char
  | [] => []
  | b :: bs =>
    if b < 0x80 then Char.ofNat b :: utf8Lossy bs
    else if b < 0xC2 then replacementChar :: utf8Lossy bs
    else if b ≤ 0xDF then
      match bs with
      | b2 :: bs2 =>
        if 0x80 ≤ b2 ∧ b2 ≤ 0xBF then
          Char.ofNat ((b % 0x20) * 0x40 + b2 % 0x40) :: utf8Lossy bs2
        else replacementChar :: utf8Lossy (b2 :: bs2)
      | [] => [replacementChar]
    else if b ≤ 0xEF then
      match bs with
      | b2 :: bs2 =>
        if (if b = 0xE0 then 0xA0 ≤ b2 ∧ b2 ≤ 0xBF
            else if b = 0xED then 0x80 ≤ b2 ∧ b2 ≤ 0x9F
            else 0x80 ≤ b2 ∧ b2 ≤ 0xBF) then
          match bs2 with
          | b3 :: bs3 =>
            if 0x80 ≤ b3 ∧ b3 ≤ 0xBF then
              Char.ofNat ((b % 0x10) * 0x1000 + (b2 % 0x40) * 0x40 + b3 % 0x40) :: utf8Lossy bs3
            else replacementChar :: utf8Lossy (b3 :: bs3)
          | [] => [replacementChar]
        else replacementChar :: utf8Lossy (b2 :: bs2)
      | [] => [replacementChar]
    else if b ≤ 0xF4 then
      match bs with
      | b2 :: bs2 =>
        if (if b = 0xF0 then 0x90 ≤ b2 ∧ b2 ≤ 0xBF
            else if b = 0xF4 then 0x80 ≤ b2 ∧ b2 ≤ 0x8F
            else 0x80 ≤ b2 ∧ b2 ≤ 0xBF) then
          match bs2 with
          | b3 :: bs3 =>
            if 0x80 ≤ b3 ∧ b3 ≤ 0xBF then
              match bs3 with
              | b4 :: bs4 =>
                if 0x80 ≤ b4 ∧ b4 ≤ 0xBF then
                  Char.ofNat ((b % 8) * 0x40000 + (b2 % 0x40) * 0x1000 +
                    (b3 % 0x40) * 0x40 + b4 % 0x40) :: utf8Lossy bs4
                else replacementChar :: utf8Lossy (b4 :: bs4)
              | [] => [replacementChar]
            else replacementChar :: utf8Lossy (b3 :: bs3)
          | [] => [replacementChar]
        else replacementChar :: utf8Lossy (b2 :: bs2)
      | [] => [replacementChar]
    else replacementChar :: utf8Lossy bs

example : utf8Lossy [104, 105] = ['h', 'i'] := by decide
example : utf8Lossy [0xC3, 0xA9] = [Char.ofNat 0xE9] := by decide
example : utf8Lossy [0xFF, 0x41] = [replacementChar, 'A'] := by decide

/-- Decimal rendering of a Nat, digit extraction with fuel so that the
definition is structurally recursive (kernel-evaluable). -/
def natDigitsAux : Nat → Nat → List Char
  | 0, _ => []
  | _ + 1, 0 => []
  | fuel + 1, n + 1 => digitChar ((n + 1) % 10) :: natDigitsAux fuel ((n + 1) / 10)

/-- Decimal rendering of a Nat (Rust u64 Display). -/
def renderNat (n : Nat) : Str :=
  if n = 0 then ['0'] else (natDigitsAux (n + 1) n).reverse

example : renderNat 1024 = "1024".data := by decide
example : renderNat 0 = "0".data := by decide

/-- Rendering of an Int (Rust i32 Display), for exit codes. -/
def renderInt (i : Int) : Str :=
  if i < 0 then '-' :: renderNat i.natAbs else renderNat i.natAbs

/-- Display of an ExitStatus (approximating the platform Display of
std::process::ExitStatus on Unix). -/
def statusDisplay : ExitStatus → Str
  | .exited c => ("exit status: ".data) ++ renderInt c
  | .signaled s => ("signal: ".data) ++ renderNat s

/-- Model of the Error enum (error.rs lines 9-58); the timeout duration is
in the same abstract units as ProcessConfig.timeout. -/
inductive Error
  | executableNotFound (name : Str)
  | ioFailure
  | processFailed (message : Str) (exit_status : Option ExitStatus) (stderr : Option Str)
  | invalidArgument (msg : Str)
  | parseError (msg : Str)
  | timeout (duration : Nat)
  | unsupported (msg : Str)
  | invalidOutput (msg : Str)
deriving DecidableEq

/-- Model of ProcessConfig (process.rs lines 18-34). -/
structure ProcessConfig where
  executable : Str
  working_dir : Option Str
  env : List (Str × Str)
  timeout : Option Nat
  capture_stdout : Bool
  capture_stderr : Bool
  pipe_stdin : Bool
deriving DecidableEq

/-- Model of ProcessConfig::new (process.rs lines 38-48). -/
def ProcessConfig.new (exe : Str) : ProcessConfig :=
  ⟨exe, none, [], none, true, true, false⟩

/-- Model of ProcessOutput (process.rs lines 230-238). -/
structure ProcessOutput where
  status : ExitStatus
  stdout : Option Bytes
  stderr : Option Bytes
deriving DecidableEq

/-- Model of ProcessOutput::success (process.rs lines 242-244). -/
def ProcessOutput.success (o : ProcessOutput) : Bool := o.status.success

/-- Model of ProcessOutput::stdout_str (process.rs lines 247-249). -/
def ProcessOutput.stdout_str (o : ProcessOutput) : Option Str := o.stdout.map utf8Lossy

/-- Model of ProcessOutput::stderr_str (process.rs lines 252-254). -/
def ProcessOutput.stderr_str (o : ProcessOutput) : Option Str := o.stderr.map utf8Lossy

/-- Message built by into_result for a failing status. -/
def processFailedMsg (st : ExitStatus) : Str :=
  ("Process exited with status: ".data) ++ statusDisplay st

/-- Model of ProcessOutput::into_result (process.rs lines 257-267). -/
def ProcessOutput.into_result (o : ProcessOutput) : Except Error ProcessOutput :=
  if o.success then .ok o
  else .error (.processFailed (processFailedMsg o.status) (some o.status) o.stderr_str)

/-- Model of the Process handle state (process.rs lines 88-91): the child's
three optional stream handles that have not yet been taken, plus the
configuration.  A handle is present right after spawn exactly when the
corresponding stream was piped. -/
structure Process where
  stdinHandle : Bool
  stdoutHandle : Bool
  stderrHandle : Bool
  config : ProcessConfig
deriving DecidableEq

/-- Model of the handle state established by Process::spawn (process.rs
lines 95-140): each stream is piped iff the corresponding flag is set,
otherwise wired to the null device. -/
def Process.spawnModel (config : ProcessConfig) : Process :=
  ⟨config.pipe_stdin, config.capture_stdout, config.capture_stderr, config⟩

/-- Model of the stream accessor Process::stdout (process.rs lines 203-205):
Option::take semantics, the handle can be obtained at most once. -/
def Process.stdoutTake (p : Process) : Option Unit × Process :=
  (if p.stdoutHandle then some () else none, { p with stdoutHandle := false })

/-- Model of the stream accessor Process::stderr (process.rs lines 208-210). -/
def Process.stderrTake (p : Process) : Option Unit × Process :=
  (if p.stderrHandle then some () else none, { p with stderrHandle := false })

/-- Model of the stream accessor Process::stdin (process.rs lines 198-200). -/
def Process.stdinTake (p : Process) : Option Unit × Process :=
  (if p.stdinHandle then some () else none, { p with stdinHandle := false })

/-- One prior interaction with the stream accessors. -/
inductive Accessor
  | stdin
  | stdout
  | stderr
deriving DecidableEq, BEq

def applyAccessor (p : Process) : Accessor → Process
  | .stdin => (p.stdinTake).2
  | .stdout => (p.stdoutTake).2
  | .stderr => (p.stderrTake).2

def applyAccessors (acts : List Accessor) (p : Process) : Process :=
  acts.foldl applyAccessor p

/-- Abstract behaviour of the child process: how long it runs before exiting
on its own, its exit status, and what it wrote to each captured stream.
ioFail models an OS-level failure of child.wait() or of a pipe read (mapped
to Error::Io in the source). -/
structure ChildModel where
  runTime : Nat
  status : ExitStatus
  stdoutBytes : Bytes
  stderrBytes : Bytes
  ioFail : Bool
deriving DecidableEq

/-- Output assembled by the wait future (process.rs lines 147-179): a stream
is captured iff capture was configured and the handle was still owned. -/
def waitOutput (p : Process) (c : ChildModel) : ProcessOutput :=
  { status := c.status
    stdout :=
      if p.config.capture_stdout then
        if p.stdoutHandle then some c.stdoutBytes else none
      else none
    stderr :=
      if p.config.capture_stderr then
        if p.stderrHandle then some c.stderrBytes else none
      else none }

/-- The wait future of Process::wait: status, then captured streams; any
underlying OS failure surfaces as Error::Io. -/
def waitFuture (p : Process) (c : ChildModel) : Except Error ProcessOutput :=
  if c.ioFail then .error .ioFailure else .ok (waitOutput p c)

deriving instance DecidableEq for Except

/-- Result of Process::wait together with whether the child was forcibly
killed on the timeout path (process.rs line 187). -/
structure WaitResult where
  result : Except Error ProcessOutput
  childKilled : Bool
deriving DecidableEq

/-- Model of Process::wait (process.rs lines 143-195): with a configured
timeout the wait future races a timer; if the child has not completed within
the timeout the child is killed and Error::Timeout carrying the configured
duration is returned; without a timeout the future is awaited directly. -/
def Process.wait (p : Process) (c : ChildModel) : WaitResult :=
  match p.config.timeout with
  | some t =>
    if c.runTime ≤ t then ⟨waitFuture p c, false⟩
    else ⟨.error (.timeout t), true⟩
  | none => ⟨waitFuture p c, false⟩

example :
    Process.wait (Process.spawnModel (ProcessConfig.new ("ffmpeg".data)))
      ⟨3, .exited 0, [104], [101], false⟩ =
      ⟨.ok ⟨.exited 0, some [104], some [101]⟩, false⟩ := by decide
example :
    Process.wait
      (Process.spawnModel { ProcessConfig.new ("ffmpeg".data) with timeout := some 2 })
      ⟨3, .exited 0, [], [], false⟩ =
      ⟨.error (.timeout 2), true⟩ := by decide

/-! ## Interleaving model of the wait future with OS pipes

The wait future of Process::wait (process.rs lines 147-179) performs, in
order: await child exit (line 148), then read stdout to end (lines 150-160),
then read stderr to end (lines 162-172).  DrainState and DStep model that
control flow together with the OS-level behaviour of a child that still has
bytes to write into bounded pipe buffers: the child can write a byte to a
pipe only while the buffer has room, and it exits only after writing
everything; a read on a pipe returns end-of-file only once the writer has
exited and the buffer is empty.  cap is the OS pipe-buffer capacity. -/

inductive DrainPhase
  | awaitExit
  | readOut
  | readErr
  | doneAll
deriving DecidableEq

structure DrainState where
  pendingOut : Nat
  bufOut : Nat
  pendingErr : Nat
  bufErr : Nat
  exited : Bool
  phase : DrainPhase
  gotOut : Nat
  gotErr : Nat
deriving DecidableEq

/-- One atomic step of the child/supervisor system. -/
inductive DStep (cap : Nat) : DrainState → DrainState → Prop
  | writeOut (s : DrainState) (h1 : 0 < s.pendingOut) (h2 : s.bufOut < cap) :
      DStep cap s { s with pendingOut := s.pendingOut - 1, bufOut := s.bufOut + 1 }
  | writeErr (s : DrainState) (h1 : 0 < s.pendingErr) (h2 : s.bufErr < cap) :
      DStep cap s { s with pendingErr := s.pendingErr - 1, bufErr := s.bufErr + 1 }
  | childExit (s : DrainState) (h1 : s.pendingOut = 0) (h2 : s.pendingErr = 0)
      (h3 : s.exited = false) :
      DStep cap s { s with exited := true }
  | observeExit (s : DrainState) (h1 : s.phase = .awaitExit) (h2 : s.exited = true) :
      DStep cap s { s with phase := .readOut }
  | readOutByte (s : DrainState) (h1 : s.phase = .readOut) (h2 : 0 < s.bufOut) :
      DStep cap s { s with bufOut := s.bufOut - 1, gotOut := s.gotOut + 1 }
  | readOutEnd (s : DrainState) (h1 : s.phase = .readOut) (h2 : s.bufOut = 0)
      (h3 : s.exited = true) :
      DStep cap s { s with phase := .readErr }
  | readErrByte (s : DrainState) (h1 : s.phase = .readErr) (h2 : 0 < s.bufErr) :
      DStep cap s { s with bufErr := s.bufErr - 1, gotErr := s.gotErr + 1 }
  | readErrEnd (s : DrainState) (h1 : s.phase = .readErr) (h2 : s.bufErr = 0)
      (h3 : s.exited = true) :
      DStep cap s { s with phase := .doneAll }

/-- Initial state: the supervisor awaits exit, the child still has wOut and
wErr bytes to write to stdout and stderr. -/
def initDrain (wOut wErr : Nat) : DrainState :=
  ⟨wOut, 0, wErr, 0, false, .awaitExit, 0, 0⟩

/-! ## Renderer for the size round-trip (claim C9)

renderSizeToken encodes a byte count n back into the kB-suffixed progress
token exactly as the claim describes: the decimal rendering of n / 1024
followed by the literal suffix kB.  sizeRule is the decoder's size rule
(process.rs lines 313-318): strip the kB suffix, parse the integer,
multiply by 1024. -/

def renderSizeToken (n : Nat) : Str := renderNat (n / 1024) ++ kBSuffix

def sizeRule (v : Str) : Option Nat := (stripSuffix kBSuffix v).bind sizeValue

example : renderSizeToken 1048576 = "1024kB".data := by decide
example : sizeRule ("1024kB".data) = some 1048576 := by decide

/-! ## Token-level apparatus for the single-bad-field claim (C3)

joinTokens renders a token list as a single-space-separated line; tokenKey
is the key a token contributes (Rust split_once('=')); fieldAbsent reads the
snapshot field selected by a recognized key; badValue says a value for a
key is unparseable without panicking, exactly per the per-key rules of
Progress::parse_line (process.rs lines 307-340): for frame/fps/q a failed
numeric parse, for size/bitrate/speed a missing unit suffix or a failed
numeric parse after stripping it, for time a Duration parse error (a
panicking time value is excluded: it aborts the whole call). -/

def joinTokens : List Str → Str
  | [] => []
  | [t] => t
  | t :: ts => t ++ ' ' :: joinTokens ts

def tokenKey (t : Str) : Option Str := (splitOnce '=' t).map (fun p => p.1)

def recognizedKeys : List Str :=
  [frameKey, fpsKey, qKey, sizeKey, timeKey, bitrateKey, speedKey]

def DurResult.isErr : DurResult → Bool
  | .err _ => true
  | _ => false

def fieldAbsent (k : Str) (p : Progress) : Bool :=
  if k = frameKey then p.frame.isNone
  else if k = fpsKey then p.fps.isNone
  else if k = qKey then p.q.isNone
  else if k = sizeKey then p.size.isNone
  else if k = timeKey then p.time.isNone
  else if k = bitrateKey then p.bitrate.isNone
  else if k = speedKey then p.speed.isNone
  else true

def badValue (k v : Str) : Bool :=
  if k = frameKey then (parseU64 v).isNone
  else if k = fpsKey then (parseF64 v).isNone
  else if k = qKey then (parseF64 v).isNone
  else if k = sizeKey then (sizeRule v).isNone
  else if k = timeKey then (from_ffmpeg_format v).isErr
  else if k = bitrateKey then
    (match stripSuffix kbitsSuffix v with
     | none => true
     | some b => (parseF64 b).isNone)
  else if k = speedKey then
    (match stripSuffix ("x".data) v with
     | none => true
     | some sp => (parseF64 sp).isNone)
  else false

/-! ## Helper lemmas -/

theorem splitWsGo_nonws (u : Str) (hu : ∀ c ∈ u, isWsChar c = false) :
    ∀ (acc rest : Str), splitWsGo acc (u ++ rest) = splitWsGo (u.reverse ++ acc) rest := by
  induction u with
  | nil => intro acc rest; simp
  | cons c u ih =>
    intro acc rest
    have hc : isWsChar c = false := hu c (by simp)
    have hu2 : ∀ d ∈ u, isWsChar d = false := fun d hd => hu d (by simp [hd])
    simp only [List.cons_append, splitWsGo, hc, Bool.false_eq_true, if_false,
      List.reverse_cons, List.append_assoc, List.singleton_append]
    exact ih hu2 (c :: acc) rest

theorem splitWsGo_ws (w : Char) (hw : isWsChar w = true) (a : Char) (as rest : Str) :
    splitWsGo (a :: as) (w :: rest) = (a :: as).reverse :: splitWsGo [] rest := by
  simp [splitWsGo, hw]

theorem splitOnce_prefix (sep : Char) (u : Str) (hu : ∀ c ∈ u, c ≠ sep) (v : Str) :
    splitOnce sep (u ++ sep :: v) = some (u, v) := by
  induction u with
  | nil => simp [splitOnce]
  | cons c u ih =>
    have hc : c ≠ sep := hu c (by simp)
    rw [List.cons_append]
    show (if c = sep then some (([] : Str), u ++ sep :: v)
      else (splitOnce sep (u ++ sep :: v)).map (fun p => (c :: p.1, p.2))) = some (c :: u, v)
    rw [if_neg hc, ih (fun d hd => hu d (by simp [hd]))]
    rfl

theorem isPrefixOf_append (n rest : Str) : n.isPrefixOf (n ++ rest) = true := by
  simp [List.isPrefixOf_iff_prefix]

theorem containsSub_self_append (n rest : Str) (hn : n ≠ []) :
    containsSub n (n ++ rest) = true := by
  cases n with
  | nil => exact absurd rfl hn
  | cons a as =>
    show containsSub (a :: as) ((a :: as) ++ rest) = true
    rw [List.cons_append]
    simp [containsSub, isPrefixOf_append (a :: as) rest]

theorem wait_ok_eq (p : Process) (c : ChildModel) (out : ProcessOutput)
    (h : (Process.wait p c).result = Except.ok out) : out = waitOutput p c := by
  unfold Process.wait waitFuture at h
  cases htc : p.config.timeout with
  | none =>
    rw [htc] at h
    by_cases hio : c.ioFail <;> simp [hio] at h
    exact h.symm
  | some t =>
    simp only [htc] at h
    by_cases hrt : c.runTime ≤ t
    · simp only [hrt, if_true] at h
      by_cases hio : c.ioFail <;> simp [hio] at h
      exact h.symm
    · simp [hrt] at h

theorem applyAccessors_config (acts : List Accessor) :
    ∀ p : Process, (applyAccessors acts p).config = p.config := by
  induction acts with
  | nil => intro p; rfl
  | cons a acts ih =>
    intro p
    cases a <;>
      simpa [applyAccessors, applyAccessor, Process.stdinTake, Process.stdoutTake,
        Process.stderrTake] using ih _

theorem applyAccessors_stdoutHandle (acts : List Accessor) :
    ∀ p : Process, (applyAccessors acts p).stdoutHandle =
      (p.stdoutHandle && !(acts.contains Accessor.stdout)) := by
  induction acts with
  | nil => intro p; simp [applyAccessors]
  | cons a acts ih =>
    intro p
    cases a
    case stdin =>
      show (applyAccessors acts { p with stdinHandle := false }).stdoutHandle = _
      rw [ih, show ((Accessor.stdin :: acts).contains Accessor.stdout) =
        acts.contains Accessor.stdout from rfl]
    case stdout =>
      show (applyAccessors acts { p with stdoutHandle := false }).stdoutHandle = _
      rw [ih, show ((Accessor.stdout :: acts).contains Accessor.stdout) = true from rfl]
      simp
    case stderr =>
      show (applyAccessors acts { p with stderrHandle := false }).stdoutHandle = _
      rw [ih, show ((Accessor.stderr :: acts).contains Accessor.stdout) =
        acts.contains Accessor.stdout from rfl]

theorem applyAccessors_stderrHandle (acts : List Accessor) :
    ∀ p : Process, (applyAccessors acts p).stderrHandle =
      (p.stderrHandle && !(acts.contains Accessor.stderr)) := by
  induction acts with
  | nil => intro p; simp [applyAccessors]
  | cons a acts ih =>
    intro p
    cases a
    case stdin =>
      show (applyAccessors acts { p with stdinHandle := false }).stderrHandle = _
      rw [ih, show ((Accessor.stdin :: acts).contains Accessor.stderr) =
        acts.contains Accessor.stderr from rfl]
    case stdout =>
      show (applyAccessors acts { p with stdoutHandle := false }).stderrHandle = _
      rw [ih, show ((Accessor.stdout :: acts).contains Accessor.stderr) =
        acts.contains Accessor.stderr from rfl]
    case stderr =>
      show (applyAccessors acts { p with stderrHandle := false }).stderrHandle = _
      rw [ih, show ((Accessor.stderr :: acts).contains Accessor.stderr) = true from rfl]
      simp

theorem digitVal_digitChar : ∀ d, d < 10 → digitVal (digitChar d) = d := by decide

theorem isDigitCh_digitChar : ∀ d, d < 10 → isDigitCh (digitChar d) = true := by decide

theorem digitsToNat_append (l : Str) (c : Char) :
    digitsToNat (l ++ [c]) = digitsToNat l * 10 + digitVal c := by
  simp [digitsToNat, List.foldl_append]

theorem natDigitsAux_spec :
    ∀ fuel n, n ≤ fuel →
      digitsToNat (natDigitsAux fuel n).reverse = n ∧
      ∀ c ∈ natDigitsAux fuel n, isDigitCh c = true := by
  intro fuel
  induction fuel with
  | zero =>
    intro n hn
    have h0 : n = 0 := Nat.le_zero.mp hn
    subst h0
    exact ⟨by decide, by simp [natDigitsAux]⟩
  | succ fuel ih =>
    intro n hn
    cases n with
    | zero => exact ⟨by simp [natDigitsAux, digitsToNat], by simp [natDigitsAux]⟩
    | succ m =>
      have hdiv : (m + 1) / 10 < m + 1 := Nat.div_lt_self (Nat.succ_pos m) (by decide)
      have hq : (m + 1) / 10 ≤ fuel := by omega
      obtain ⟨ihv, ihd⟩ := ih ((m + 1) / 10) hq
      have hmod : (m + 1) % 10 < 10 := Nat.mod_lt _ (by decide)
      constructor
      · rw [show natDigitsAux (fuel + 1) (m + 1) =
          digitChar ((m + 1) % 10) :: natDigitsAux fuel ((m + 1) / 10) from rfl]
        rw [List.reverse_cons, digitsToNat_append, ihv, digitVal_digitChar _ hmod]
        omega
      · intro c hc
        rw [show natDigitsAux (fuel + 1) (m + 1) =
          digitChar ((m + 1) % 10) :: natDigitsAux fuel ((m + 1) / 10) from rfl] at hc
        rcases List.mem_cons.mp hc with h | h
        · rw [h]; exact isDigitCh_digitChar _ hmod
        · exact ihd c h

theorem renderNat_spec (n : Nat) :
    renderNat n ≠ [] ∧ (∀ c ∈ renderNat n, isDigitCh c = true) ∧
      digitsToNat (renderNat n) = n := by
  by_cases h0 : n = 0
  · subst h0
    exact ⟨by decide, by decide, by decide⟩
  · obtain ⟨hv, hd⟩ := natDigitsAux_spec (n + 1) n (Nat.le_succ n)
    unfold renderNat
    rw [if_neg h0]
    refine ⟨?_, ?_, hv⟩
    · cases n with
      | zero => exact absurd rfl h0
      | succ m => simp [natDigitsAux]
    · intro c hc
      exact hd c (List.mem_reverse.mp hc)

theorem parseU64_digits (s : Str) (hne : s ≠ []) (hall : ∀ c ∈ s, isDigitCh c = true)
    (hlt : digitsToNat s < 2 ^ 64) : parseU64 s = some (digitsToNat s) := by
  cases s with
  | nil => exact absurd rfl hne
  | cons c r =>
    have hc : isDigitCh c = true := hall c (by simp)
    have hcp : ¬ c = '+' := by
      intro he
      rw [he] at hc
      exact absurd hc (by decide)
    have hallb : (c :: r).all isDigitCh = true := List.all_eq_true.mpr hall
    unfold parseU64
    simp only [if_neg hcp]
    rw [if_pos ⟨List.cons_ne_nil c r, hallb⟩, if_pos hlt]

theorem stripSuffix_append (xs suf : Str) : stripSuffix suf (xs ++ suf) = some xs := by
  unfold stripSuffix
  rw [if_pos]
  · rw [List.length_append, Nat.add_sub_cancel, List.take_left]
  · show (suf.isSuffixOf (xs ++ suf)) = true
    rw [List.isSuffixOf_iff_suffix]
    exact List.suffix_append xs suf

theorem drain_invariant (cap : Nat) (s : DrainState)
    (h : Relation.ReflTransGen (DStep cap) (initDrain (cap + 1) (cap + 1)) s) :
    s.phase = DrainPhase.awaitExit ∧ s.exited = false ∧
      s.bufOut ≤ cap ∧ s.pendingOut + s.bufOut = cap + 1 := by
  induction h with
  | refl => exact ⟨rfl, rfl, by simp [initDrain], by simp [initDrain]⟩
  | tail hab hbc ih =>
    obtain ⟨ih1, ih2, ih3, ih4⟩ := ih
    rename_i b fin
    cases hbc with
    | writeOut h1 h2 =>
      refine ⟨ih1, ih2, ?_, ?_⟩
      · show b.bufOut + 1 ≤ cap
        omega
      · show b.pendingOut - 1 + (b.bufOut + 1) = cap + 1
        omega
    | writeErr h1 h2 => exact ⟨ih1, ih2, ih3, ih4⟩
    | childExit h1 h2 h3 => exfalso; omega
    | observeExit h1 h2 => rw [ih2] at h2; exact absurd h2 (by decide)
    | readOutByte h1 h2 => rw [ih1] at h1; exact absurd h1 (by decide)
    | readOutEnd h1 h2 h3 => rw [ih1] at h1; exact absurd h1 (by decide)
    | readErrByte h1 h2 => rw [ih1] at h1; exact absurd h1 (by decide)
    | readErrEnd h1 h2 h3 => rw [ih1] at h1; exact absurd h1 (by decide)

theorem splitWsGo_single (t : Str) (hne : t ≠ []) (hws : ∀ c ∈ t, isWsChar c = false) :
    splitWsGo [] t = [t] := by
  have h := splitWsGo_nonws t hws [] []
  rw [List.append_nil, List.append_nil] at h
  rw [h]
  obtain ⟨a, as, ha⟩ := List.exists_cons_of_ne_nil
    (show t.reverse ≠ [] by rwa [Ne, List.reverse_eq_nil_iff])
  rw [ha]
  show [(a :: as).reverse] = [t]
  rw [← ha, List.reverse_reverse]

theorem splitWs_joinTokens (ts : List Str)
    (h : ∀ t ∈ ts, t ≠ [] ∧ ∀ c ∈ t, isWsChar c = false) :
    splitWs (joinTokens ts) = ts := by
  induction ts with
  | nil => rfl
  | cons t ts ih =>
    cases ts with
    | nil =>
      obtain ⟨hne, hws⟩ := h t (by simp)
      exact splitWsGo_single t hne hws
    | cons t2 ts2 =>
      obtain ⟨hne, hws⟩ := h t (by simp)
      have hrest : ∀ u ∈ t2 :: ts2, u ≠ [] ∧ ∀ c ∈ u, isWsChar c = false :=
        fun u hu => h u (by simp [hu])
      show splitWsGo [] (t ++ ' ' :: joinTokens (t2 :: ts2)) = t :: t2 :: ts2
      rw [splitWsGo_nonws t hws [] (' ' :: joinTokens (t2 :: ts2)), List.append_nil]
      obtain ⟨a, as, ha⟩ := List.exists_cons_of_ne_nil
        (show t.reverse ≠ [] by rwa [Ne, List.reverse_eq_nil_iff])
      rw [ha, splitWsGo_ws ' ' (by decide) a as (joinTokens (t2 :: ts2)), ← ha,
        List.reverse_reverse]
      rw [show splitWsGo [] (joinTokens (t2 :: ts2)) = splitWs (joinTokens (t2 :: ts2))
        from rfl]
      rw [ih hrest]

theorem foldTokens_append (xs ys : List Str) :
    ∀ p, foldTokens p (xs ++ ys) =
      match foldTokens p xs with
      | .ok q => foldTokens q ys
      | .error e => Except.error e := by
  induction xs with
  | nil => intro p; rfl
  | cons t xs ih =>
    intro p
    rw [show foldTokens p ((t :: xs) ++ ys) =
        (match applyToken p t with
         | .ok p2 => foldTokens p2 (xs ++ ys)
         | .error e => Except.error e) from rfl,
      show foldTokens p (t :: xs) =
        (match applyToken p t with
         | .ok p2 => foldTokens p2 xs
         | .error e => Except.error e) from rfl]
    cases h2 : applyToken p t with
    | ok p2 => exact ih p2
    | error e => rfl

theorem applyToken_eq_kv (p : Progress) (t k' v' : Str)
    (hsp : splitOnce '=' t = some (k', v')) :
    applyToken p t =
      (if k' = frameKey then Except.ok { p with frame := parseU64 v' }
       else if k' = fpsKey then Except.ok { p with fps := parseF64 v' }
       else if k' = qKey then Except.ok { p with q := parseF64 v' }
       else if k' = sizeKey then
         match stripSuffix kBSuffix v' with
         | some kb => Except.ok { p with size := sizeValue kb }
         | none => Except.ok p
       else if k' = timeKey then
         match from_ffmpeg_format v' with
         | .ok d => Except.ok { p with time := some d }
         | .err _ => Except.ok p
         | .panicked => Except.error ()
       else if k' = bitrateKey then
         match stripSuffix kbitsSuffix v' with
         | some kb => Except.ok { p with bitrate := (parseF64 kb).map (fun f => f.mulK 1000) }
         | none => Except.ok p
       else if k' = speedKey then
         match stripSuffix ("x".data) v' with
         | some sp => Except.ok { p with speed := parseF64 sp }
         | none => Except.ok p
       else Except.ok p) := by
  unfold applyToken
  rw [hsp]

theorem applyToken_fields (p q : Progress) (t k' v' : Str)
    (hsp : splitOnce '=' t = some (k', v'))
    (hstep : applyToken p t = Except.ok q) :
    (k' ≠ frameKey → q.frame = p.frame) ∧ (k' ≠ fpsKey → q.fps = p.fps) ∧
    (k' ≠ qKey → q.q = p.q) ∧ (k' ≠ sizeKey → q.size = p.size) ∧
    (k' ≠ timeKey → q.time = p.time) ∧ (k' ≠ bitrateKey → q.bitrate = p.bitrate) ∧
    (k' ≠ speedKey → q.speed = p.speed) := by
  rw [applyToken_eq_kv p t k' v' hsp] at hstep
  split_ifs at hstep with h1 h2 h3 h4 h5 h6 h7
  · cases hstep
    exact ⟨fun h => absurd h1 h, fun _ => rfl, fun _ => rfl, fun _ => rfl, fun _ => rfl,
      fun _ => rfl, fun _ => rfl⟩
  · cases hstep
    exact ⟨fun _ => rfl, fun h => absurd h2 h, fun _ => rfl, fun _ => rfl, fun _ => rfl,
      fun _ => rfl, fun _ => rfl⟩
  · cases hstep
    exact ⟨fun _ => rfl, fun _ => rfl, fun h => absurd h3 h, fun _ => rfl, fun _ => rfl,
      fun _ => rfl, fun _ => rfl⟩
  · cases hs : stripSuffix kBSuffix v' with
    | none =>
      rw [hs] at hstep
      cases hstep
      exact ⟨fun _ => rfl, fun _ => rfl, fun _ => rfl, fun _ => rfl, fun _ => rfl,
        fun _ => rfl, fun _ => rfl⟩
    | some kb =>
      rw [hs] at hstep
      cases hstep
      exact ⟨fun _ => rfl, fun _ => rfl, fun _ => rfl, fun h => absurd h4 h, fun _ => rfl,
        fun _ => rfl, fun _ => rfl⟩
  · cases hd : from_ffmpeg_format v' with
    | ok d =>
      rw [hd] at hstep
      cases hstep
      exact ⟨fun _ => rfl, fun _ => rfl, fun _ => rfl, fun _ => rfl, fun h => absurd h5 h,
        fun _ => rfl, fun _ => rfl⟩
    | err m =>
      rw [hd] at hstep
      cases hstep
      exact ⟨fun _ => rfl, fun _ => rfl, fun _ => rfl, fun _ => rfl, fun _ => rfl,
        fun _ => rfl, fun _ => rfl⟩
    | panicked =>
      rw [hd] at hstep
      cases hstep
  · cases hs : stripSuffix kbitsSuffix v' with
    | none =>
      rw [hs] at hstep
      cases hstep
      exact ⟨fun _ => rfl, fun _ => rfl, fun _ => rfl, fun _ => rfl, fun _ => rfl,
        fun _ => rfl, fun _ => rfl⟩
    | some b =>
      rw [hs] at hstep
      cases hstep
      exact ⟨fun _ => rfl, fun _ => rfl, fun _ => rfl, fun _ => rfl, fun _ => rfl,
        fun h => absurd h6 h, fun _ => rfl⟩
  · cases hs : stripSuffix ("x".data) v' with
    | none =>
      rw [hs] at hstep
      cases hstep
      exact ⟨fun _ => rfl, fun _ => rfl, fun _ => rfl, fun _ => rfl, fun _ => rfl,
        fun _ => rfl, fun _ => rfl⟩
    | some sp =>
      rw [hs] at hstep
      cases hstep
      exact ⟨fun _ => rfl, fun _ => rfl, fun _ => rfl, fun _ => rfl, fun _ => rfl,
        fun _ => rfl, fun h => absurd h7 h⟩
  · cases hstep
    exact ⟨fun _ => rfl, fun _ => rfl, fun _ => rfl, fun _ => rfl, fun _ => rfl,
      fun _ => rfl, fun _ => rfl⟩

theorem applyToken_preserves_other (k : Str) (p q : Progress) (t : Str)
    (hk : tokenKey t ≠ some k) (hstep : applyToken p t = Except.ok q)
    (ha : fieldAbsent k p = true) : fieldAbsent k q = true := by
  cases hsp : splitOnce '=' t with
  | none =>
    unfold applyToken at hstep
    rw [hsp] at hstep
    cases hstep
    exact ha
  | some kv =>
    obtain ⟨k', v'⟩ := kv
    have hne : k' ≠ k := by
      intro he
      apply hk
      unfold tokenKey
      rw [hsp, he]
      rfl
    obtain ⟨f1, f2, f3, f4, f5, f6, f7⟩ := applyToken_fields p q t k' v' hsp hstep
    unfold fieldAbsent at ha ⊢
    split_ifs at ha ⊢ with h1 h2 h3 h4 h5 h6 h7
    · rw [f1 (h1 ▸ hne)]; exact ha
    · rw [f2 (h2 ▸ hne)]; exact ha
    · rw [f3 (h3 ▸ hne)]; exact ha
    · rw [f4 (h4 ▸ hne)]; exact ha
    · rw [f5 (h5 ▸ hne)]; exact ha
    · rw [f6 (h6 ▸ hne)]; exact ha
    · rw [f7 (h7 ▸ hne)]; exact ha
    · rfl

theorem fieldAbsent_empty (k : Str) : fieldAbsent k emptyProgress = true := by
  unfold fieldAbsent
  split_ifs <;> rfl

theorem foldTokens_preserves_other (k : Str) (ts : List Str)
    (h : ∀ t ∈ ts, tokenKey t ≠ some k) :
    ∀ p q, foldTokens p ts = Except.ok q → fieldAbsent k p = true →
      fieldAbsent k q = true := by
  induction ts with
  | nil =>
    intro p q hf ha
    unfold foldTokens at hf
    cases hf
    exact ha
  | cons t ts ih =>
    intro p q hf ha
    unfold foldTokens at hf
    cases hstep : applyToken p t with
    | ok p2 =>
      rw [hstep] at hf
      exact ih (fun u hu => h u (by simp [hu])) p2 q hf
        (applyToken_preserves_other k p p2 t (h t (by simp)) hstep ha)
    | error e =>
      rw [hstep] at hf
      cases hf

theorem applyToken_bad_noop (k v : Str) (p : Progress)
    (hk : k ∈ recognizedKeys) (hb : badValue k v = true) (ha : fieldAbsent k p = true) :
    applyToken p (k ++ '=' :: v) = Except.ok p := by
  have hkeq : k = frameKey ∨ k = fpsKey ∨ k = qKey ∨ k = sizeKey ∨ k = timeKey ∨
      k = bitrateKey ∨ k = speedKey := by
    simpa [recognizedKeys] using hk
  rcases hkeq with rfl | rfl | rfl | rfl | rfl | rfl | rfl
  · have hsp : splitOnce '=' (frameKey ++ '=' :: v) = some (frameKey, v) :=
      splitOnce_prefix '=' frameKey (by decide) v
    rw [applyToken_eq_kv p (frameKey ++ '=' :: v) frameKey v hsp]
    rw [if_pos rfl]
    unfold badValue at hb
    rw [if_pos rfl] at hb
    unfold fieldAbsent at ha
    rw [if_pos rfl] at ha
    rw [Option.isNone_iff_eq_none] at hb ha
    rw [hb, ← ha]
  · have hsp : splitOnce '=' (fpsKey ++ '=' :: v) = some (fpsKey, v) :=
      splitOnce_prefix '=' fpsKey (by decide) v
    rw [applyToken_eq_kv p (fpsKey ++ '=' :: v) fpsKey v hsp]
    rw [if_neg (show ¬(fpsKey = frameKey) by decide),
      if_pos rfl]
    unfold badValue at hb
    rw [if_neg (show ¬(fpsKey = frameKey) by decide),
      if_pos rfl] at hb
    unfold fieldAbsent at ha
    rw [if_neg (show ¬(fpsKey = frameKey) by decide),
      if_pos rfl] at ha
    rw [Option.isNone_iff_eq_none] at hb ha
    rw [hb, ← ha]
  · have hsp : splitOnce '=' (qKey ++ '=' :: v) = some (qKey, v) :=
      splitOnce_prefix '=' qKey (by decide) v
    rw [applyToken_eq_kv p (qKey ++ '=' :: v) qKey v hsp]
    rw [if_neg (show ¬(qKey = frameKey) by decide),
      if_neg (show ¬(qKey = fpsKey) by decide),
      if_pos rfl]
    unfold badValue at hb
    rw [if_neg (show ¬(qKey = frameKey) by decide),
      if_neg (show ¬(qKey = fpsKey) by decide),
      if_pos rfl] at hb
    unfold fieldAbsent at ha
    rw [if_neg (show ¬(qKey = frameKey) by decide),
      if_neg (show ¬(qKey = fpsKey) by decide),
      if_pos rfl] at ha
    rw [Option.isNone_iff_eq_none] at hb ha
    rw [hb, ← ha]
  · have hsp : splitOnce '=' (sizeKey ++ '=' :: v) = some (sizeKey, v) :=
      splitOnce_prefix '=' sizeKey (by decide) v
    rw [applyToken_eq_kv p (sizeKey ++ '=' :: v) sizeKey v hsp]
    rw [if_neg (show ¬(sizeKey = frameKey) by decide),
      if_neg (show ¬(sizeKey = fpsKey) by decide),
      if_neg (show ¬(sizeKey = qKey) by decide),
      if_pos rfl]
    unfold badValue at hb
    rw [if_neg (show ¬(sizeKey = frameKey) by decide),
      if_neg (show ¬(sizeKey = fpsKey) by decide),
      if_neg (show ¬(sizeKey = qKey) by decide),
      if_pos rfl] at hb
    unfold fieldAbsent at ha
    rw [if_neg (show ¬(sizeKey = frameKey) by decide),
      if_neg (show ¬(sizeKey = fpsKey) by decide),
      if_neg (show ¬(sizeKey = qKey) by decide),
      if_pos rfl] at ha
    rw [Option.isNone_iff_eq_none] at hb ha
    cases hs : stripSuffix kBSuffix v with
    | none => rfl
    | some kb =>
      show Except.ok { p with size := sizeValue kb } = Except.ok p
      unfold sizeRule at hb
      rw [hs] at hb
      have hb2 : sizeValue kb = none := hb
      rw [hb2, ← ha]
  · have hsp : splitOnce '=' (timeKey ++ '=' :: v) = some (timeKey, v) :=
      splitOnce_prefix '=' timeKey (by decide) v
    rw [applyToken_eq_kv p (timeKey ++ '=' :: v) timeKey v hsp]
    rw [if_neg (show ¬(timeKey = frameKey) by decide),
      if_neg (show ¬(timeKey = fpsKey) by decide),
      if_neg (show ¬(timeKey = qKey) by decide),
      if_neg (show ¬(timeKey = sizeKey) by decide),
      if_pos rfl]
    unfold badValue at hb
    rw [if_neg (show ¬(timeKey = frameKey) by decide),
      if_neg (show ¬(timeKey = fpsKey) by decide),
      if_neg (show ¬(timeKey = qKey) by decide),
      if_neg (show ¬(timeKey = sizeKey) by decide),
      if_pos rfl] at hb
    unfold fieldAbsent at ha
    rw [if_neg (show ¬(timeKey = frameKey) by decide),
      if_neg (show ¬(timeKey = fpsKey) by decide),
      if_neg (show ¬(timeKey = qKey) by decide),
      if_neg (show ¬(timeKey = sizeKey) by decide),
      if_pos rfl] at ha
    cases hd : from_ffmpeg_format v with
    | ok d =>
      rw [hd] at hb
      simp [DurResult.isErr] at hb
    | err m => rfl
    | panicked =>
      rw [hd] at hb
      simp [DurResult.isErr] at hb
  · have hsp : splitOnce '=' (bitrateKey ++ '=' :: v) = some (bitrateKey, v) :=
      splitOnce_prefix '=' bitrateKey (by decide) v
    rw [applyToken_eq_kv p (bitrateKey ++ '=' :: v) bitrateKey v hsp]
    rw [if_neg (show ¬(bitrateKey = frameKey) by decide),
      if_neg (show ¬(bitrateKey = fpsKey) by decide),
      if_neg (show ¬(bitrateKey = qKey) by decide),
      if_neg (show ¬(bitrateKey = sizeKey) by decide),
      if_neg (show ¬(bitrateKey = timeKey) by decide),
      if_pos rfl]
    unfold badValue at hb
    rw [if_neg (show ¬(bitrateKey = frameKey) by decide),
      if_neg (show ¬(bitrateKey = fpsKey) by decide),
      if_neg (show ¬(bitrateKey = qKey) by decide),
      if_neg (show ¬(bitrateKey = sizeKey) by decide),
      if_neg (show ¬(bitrateKey = timeKey) by decide),
      if_pos rfl] at hb
    unfold fieldAbsent at ha
    rw [if_neg (show ¬(bitrateKey = frameKey) by decide),
      if_neg (show ¬(bitrateKey = fpsKey) by decide),
      if_neg (show ¬(bitrateKey = qKey) by decide),
      if_neg (show ¬(bitrateKey = sizeKey) by decide),
      if_neg (show ¬(bitrateKey = timeKey) by decide),
      if_pos rfl] at ha
    rw [Option.isNone_iff_eq_none] at ha
    cases hs : stripSuffix kbitsSuffix v with
    | none => rfl
    | some b =>
      show Except.ok { p with bitrate := (parseF64 b).map (fun f => f.mulK 1000) } =
        Except.ok p
      rw [hs] at hb
      rw [Option.isNone_iff_eq_none] at hb
      rw [hb]
      show Except.ok { p with bitrate := (none : Option F64) } = Except.ok p
      rw [← ha]
  · have hsp : splitOnce '=' (speedKey ++ '=' :: v) = some (speedKey, v) :=
      splitOnce_prefix '=' speedKey (by decide) v
    rw [applyToken_eq_kv p (speedKey ++ '=' :: v) speedKey v hsp]
    rw [if_neg (show ¬(speedKey = frameKey) by decide),
      if_neg (show ¬(speedKey = fpsKey) by decide),
      if_neg (show ¬(speedKey = qKey) by decide),
      if_neg (show ¬(speedKey = sizeKey) by decide),
      if_neg (show ¬(speedKey = timeKey) by decide),
      if_neg (show ¬(speedKey = bitrateKey) by decide),
      if_pos rfl]
    unfold badValue at hb
    rw [if_neg (show ¬(speedKey = frameKey) by decide),
      if_neg (show ¬(speedKey = fpsKey) by decide),
      if_neg (show ¬(speedKey = qKey) by decide),
      if_neg (show ¬(speedKey = sizeKey) by decide),
      if_neg (show ¬(speedKey = timeKey) by decide),
      if_neg (show ¬(speedKey = bitrateKey) by decide),
      if_pos rfl] at hb
    unfold fieldAbsent at ha
    rw [if_neg (show ¬(speedKey = frameKey) by decide),
      if_neg (show ¬(speedKey = fpsKey) by decide),
      if_neg (show ¬(speedKey = qKey) by decide),
      if_neg (show ¬(speedKey = sizeKey) by decide),
      if_neg (show ¬(speedKey = timeKey) by decide),
      if_neg (show ¬(speedKey = bitrateKey) by decide),
      if_pos rfl] at ha
    rw [Option.isNone_iff_eq_none] at ha
    cases hs : stripSuffix ("x".data) v with
    | none => rfl
    | some sp =>
      show Except.ok { p with speed := parseF64 sp } = Except.ok p
      rw [hs] at hb
      rw [Option.isNone_iff_eq_none] at hb
      rw [hb, ← ha]

/-! ## Claim theorems -/

/-- C1: the code contradicts its own unit test.  On the exact line
frame=  100 fps=25.0 q=28.0 size=    1024kB time=00:00:04.00
bitrate=2097.2kbits/s speed=1.00x (with the padding spaces),
Progress::parse_line yields a snapshot whose frame and size fields are None,
because split_whitespace turns frame= and 100 (and size= and 1024kB) into
separate tokens; the claim and the repository's test test_progress_parsing
expect frame = 100 and size = 1048576.  The other five fields match the
claim: fps 25.0, q 28.0, time 4 s, bitrate 2097200 bits/s, speed 1.0. -/
theorem c1_padded_line_eval :
    Progress.parse_line testLine =
      ParseLineResult.ret (some ⟨none, some (F64.finite 25), some (F64.finite 28), none,
        some 4000000000, some (F64.finite 2097200), some (F64.finite 1)⟩) := by decide

/-- C2: a line that does not contain the substring frame= decodes to no
snapshot and no error, and stream_progress never invokes the callback for
such a line. -/
theorem c2_no_marker_no_snapshot (s : Str) (h : containsSub frameMarker s = false) :
    Progress.parse_line s = ParseLineResult.ret none ∧
      streamProgress [s] = StreamResult.done [] := by
  constructor
  · simp [Progress.parse_line, h]
  · simp [streamProgress, Progress.parse_line, h]

/-- C2 witness: the line out of frames mentions frames but has no frame=
substring, decodes to no snapshot, and delivers nothing to the sink. -/
theorem c2_witness :
    containsSub frameMarker ("out of frames".data) = false ∧
    Progress.parse_line ("out of frames".data) = ParseLineResult.ret none ∧
    streamProgress [("out of frames".data)] = StreamResult.done [] :=
  ⟨by decide, (c2_no_marker_no_snapshot ("out of frames".data) (by decide)).1,
    (c2_no_marker_no_snapshot ("out of frames".data) (by decide)).2⟩

/-- C3 counterexample: the line frame=2 time=NaN contains frame= and has a
single bad field (the time value is not a valid duration), yet parse_line
panics inside Duration::from_secs_f64 instead of returning a snapshot with
only the time field absent, so the unconditional claim is false. -/
theorem c3_counterexample :
    Progress.parse_line ("frame=2 time=NaN".data) = ParseLineResult.panicked := by decide

/-- C3 (amended): on any line made of whitespace-separated tokens containing
frame=, in which one token carries a recognized key with an unparseable but
non-panicking value (badValue), the key appears in no other token, and the
remaining tokens decode without panicking to a snapshot p, parse_line still
returns Some p with the bad key's field absent: the bad token changes
nothing, so every other recognized key with a parseable value is populated
exactly as by the rest of the line, and the line is never rejected. -/
theorem c3_single_bad_field (ts1 ts2 : List Str) (k v : Str) (p : Progress)
    (hts : ∀ t ∈ ts1 ++ ts2, t ≠ [] ∧ ∀ c ∈ t, isWsChar c = false)
    (hv : ∀ c ∈ v, isWsChar c = false)
    (hk : k ∈ recognizedKeys)
    (hbad : badValue k v = true)
    (honce : ∀ t ∈ ts1 ++ ts2, tokenKey t ≠ some k)
    (hcontains : containsSub frameMarker (joinTokens (ts1 ++ (k ++ '=' :: v) :: ts2)) = true)
    (hgood : foldTokens emptyProgress (ts1 ++ ts2) = Except.ok p) :
    Progress.parse_line (joinTokens (ts1 ++ (k ++ '=' :: v) :: ts2)) =
      ParseLineResult.ret (some p) ∧ fieldAbsent k p = true := by
  have hkeq : k = frameKey ∨ k = fpsKey ∨ k = qKey ∨ k = sizeKey ∨ k = timeKey ∨
      k = bitrateKey ∨ k = speedKey := by
    simpa [recognizedKeys] using hk
  have hbadtok : (k ++ '=' :: v) ≠ [] ∧ ∀ c ∈ k ++ '=' :: v, isWsChar c = false := by
    constructor
    · intro he
      rw [List.append_eq_nil] at he
      exact List.cons_ne_nil _ _ he.2
    · intro c hc
      rcases List.mem_append.mp hc with h | h
      · have hkws : ∀ c ∈ k, isWsChar c = false := by
          rcases hkeq with rfl | rfl | rfl | rfl | rfl | rfl | rfl <;> decide
        exact hkws c h
      · rcases List.mem_cons.mp h with rfl | h2
        · decide
        · exact hv c h2
  have hall : ∀ t ∈ ts1 ++ (k ++ '=' :: v) :: ts2,
      t ≠ [] ∧ ∀ c ∈ t, isWsChar c = false := by
    intro t ht
    rcases List.mem_append.mp ht with h | h
    · exact hts t (List.mem_append.mpr (Or.inl h))
    · rcases List.mem_cons.mp h with rfl | h2
      · exact hbadtok
      · exact hts t (List.mem_append.mpr (Or.inr h2))
  have hsplit := splitWs_joinTokens _ hall
  have hmid := foldTokens_append ts1 ts2 emptyProgress
  cases h1 : foldTokens emptyProgress ts1 with
  | error e =>
    rw [h1, hgood] at hmid
    cases hmid
  | ok p1 =>
    rw [h1] at hmid
    have hmid2 : foldTokens emptyProgress (ts1 ++ ts2) = foldTokens p1 ts2 := hmid
    have hp2 : foldTokens p1 ts2 = Except.ok p := by
      rw [← hmid2]
      exact hgood
    have ha1 : fieldAbsent k p1 = true :=
      foldTokens_preserves_other k ts1
        (fun t ht => honce t (List.mem_append.mpr (Or.inl ht)))
        emptyProgress p1 h1 (fieldAbsent_empty k)
    have hnoop := applyToken_bad_noop k v p1 hk hbad ha1
    have hfold : foldTokens emptyProgress (ts1 ++ (k ++ '=' :: v) :: ts2) =
        Except.ok p := by
      rw [foldTokens_append ts1 ((k ++ '=' :: v) :: ts2) emptyProgress, h1]
      show foldTokens p1 ((k ++ '=' :: v) :: ts2) = Except.ok p
      unfold foldTokens
      rw [hnoop]
      exact hp2
    refine ⟨?_, foldTokens_preserves_other k ts2
      (fun t ht => honce t (List.mem_append.mpr (Or.inr ht))) p1 p hp2 ha1⟩
    simp [Progress.parse_line, hcontains, hsplit, hfold]

/-- C3 witness: the claim's example line frame=abc fps=25.0, as the token
list [frame=abc, fps=25.0]: the snapshot has frame absent and fps 25.0. -/
theorem c3_witness :
    Progress.parse_line (joinTokens ([] ++ (frameKey ++ '=' :: ("abc".data)) ::
        [("fps=25.0".data)])) =
      ParseLineResult.ret
        (some ⟨none, some (F64.finite 25), none, none, none, none, none⟩) ∧
    fieldAbsent frameKey ⟨none, some (F64.finite 25), none, none, none, none, none⟩ =
      true :=
  c3_single_bad_field [] [("fps=25.0".data)] frameKey ("abc".data)
    ⟨none, some (F64.finite 25), none, none, none, none, none⟩
    (by decide) (by decide) (by decide) (by decide) (by decide) (by decide) (by decide)

/-- C4: when the configuration carries a timeout t and the child does not
complete within t, wait returns the error Timeout(t) carrying exactly the
configured duration, the child is forcibly killed, and no normal
ProcessOutput is ever returned on that path. -/
theorem c4_timeout_kills_and_errors (p : Process) (c : ChildModel) (t : Nat)
    (hT : p.config.timeout = some t) (hSlow : ¬ c.runTime ≤ t) :
    Process.wait p c = ⟨Except.error (Error.timeout t), true⟩ ∧
      ∀ out : ProcessOutput, (Process.wait p c).result ≠ Except.ok out := by
  have h : Process.wait p c = ⟨Except.error (Error.timeout t), true⟩ := by
    simp [Process.wait, hT, hSlow]
  exact ⟨h, fun out hc => by rw [h] at hc; exact Except.noConfusion hc⟩

/-- C4 witness: a child needing 10 units against a 5-unit timeout. -/
theorem c4_witness :
    Process.wait
      (Process.spawnModel { ProcessConfig.new ("ffmpeg".data) with timeout := some 5 })
      ⟨10, ExitStatus.exited 0, [], [], false⟩ =
      ⟨Except.error (Error.timeout 5), true⟩ :=
  (c4_timeout_kills_and_errors _ _ 5 (by decide) (by decide)).1

/-- C5: into_result returns the output unchanged exactly when the exit
status satisfies the success predicate, otherwise a ProcessFailed error
carrying Some of that status and the lossy UTF-8 decoding of the captured
stderr (None when stderr was not captured); and a non-zero exit code is
never an error from wait itself. -/
theorem c5_into_result_spec :
    (∀ o : ProcessOutput, o.success = true → o.into_result = Except.ok o) ∧
    (∀ o : ProcessOutput, o.success = false →
      o.into_result = Except.error (Error.processFailed (processFailedMsg o.status)
        (some o.status) (o.stderr.map utf8Lossy))) ∧
    (∀ (p : Process) (c : ChildModel), p.config.timeout = none → c.ioFail = false →
      Process.wait p c = ⟨Except.ok (waitOutput p c), false⟩) := by
  refine ⟨fun o h => ?_, fun o h => ?_, fun p c ht hio => ?_⟩
  · simp [ProcessOutput.into_result, h]
  · simp [ProcessOutput.into_result, h, ProcessOutput.stderr_str]
  · simp [Process.wait, ht, waitFuture, hio]

/-- C5 witness: a succeeding output passes through unchanged; an output with
exit code 1 and captured stderr bytes 101 turns into ProcessFailed carrying
the status and the decoded text e; wait on a failing child without timeout
still returns Ok. -/
theorem c5_witness :
    (⟨ExitStatus.exited 0, none, none⟩ : ProcessOutput).into_result =
        Except.ok ⟨ExitStatus.exited 0, none, none⟩ ∧
    (⟨ExitStatus.exited 1, none, some [101]⟩ : ProcessOutput).into_result =
        Except.error (Error.processFailed (processFailedMsg (ExitStatus.exited 1))
          (some (ExitStatus.exited 1)) (some ['e'])) ∧
    Process.wait (Process.spawnModel (ProcessConfig.new ("f".data)))
        ⟨1, ExitStatus.exited 3, [], [], false⟩ =
      ⟨Except.ok (waitOutput (Process.spawnModel (ProcessConfig.new ("f".data)))
        ⟨1, ExitStatus.exited 3, [], [], false⟩), false⟩ :=
  ⟨c5_into_result_spec.1 _ (by decide), c5_into_result_spec.2.1 _ (by decide),
    c5_into_result_spec.2.2 _ _ (by decide) (by decide)⟩

/-- C6 (amended): in the outcome of a successful wait, captured stdout bytes
are present iff stdout capture was requested AND the stdout handle had not
been taken through the stream accessor beforehand; likewise for stderr. -/
theorem c6_capture_iff_requested_and_not_taken (cfg : ProcessConfig) (acts : List Accessor)
    (c : ChildModel) (out : ProcessOutput)
    (h : (Process.wait (applyAccessors acts (Process.spawnModel cfg)) c).result =
      Except.ok out) :
    out.stdout.isSome = (cfg.capture_stdout && !(acts.contains Accessor.stdout)) ∧
    out.stderr.isSome = (cfg.capture_stderr && !(acts.contains Accessor.stderr)) := by
  have hout := wait_ok_eq _ _ _ h
  subst hout
  have hcfg : (applyAccessors acts (Process.spawnModel cfg)).config = cfg :=
    applyAccessors_config acts (Process.spawnModel cfg)
  have hso : (applyAccessors acts (Process.spawnModel cfg)).stdoutHandle =
      (cfg.capture_stdout && !(acts.contains Accessor.stdout)) :=
    applyAccessors_stdoutHandle acts (Process.spawnModel cfg)
  have hse : (applyAccessors acts (Process.spawnModel cfg)).stderrHandle =
      (cfg.capture_stderr && !(acts.contains Accessor.stderr)) :=
    applyAccessors_stderrHandle acts (Process.spawnModel cfg)
  constructor
  · cases hcs : cfg.capture_stdout <;> cases hct : acts.contains Accessor.stdout <;>
      simp [waitOutput, hcfg, hso, hcs, hct]
  · cases hcs : cfg.capture_stderr <;> cases hct : acts.contains Accessor.stderr <;>
      simp [waitOutput, hcfg, hse, hcs, hct]

/-- C6 counterexample: with capture_stdout requested (the default
configuration) but the stdout handle taken through the accessor before wait,
the outcome's stdout is None, refuting presence iff capture was requested
independently of prior accessor interactions. -/
theorem c6_counterexample :
    (Process.wait (applyAccessors [Accessor.stdout]
        (Process.spawnModel (ProcessConfig.new ("ffmpeg".data))))
        ⟨0, ExitStatus.exited 0, [104], [101], false⟩).result =
      Except.ok ⟨ExitStatus.exited 0, none, some [101]⟩ ∧
    (ProcessConfig.new ("ffmpeg".data)).capture_stdout = true := by decide

/-- C6 witness: with no prior accessor interaction and the default capture
configuration both streams are present. -/
theorem c6_witness :
    (⟨ExitStatus.exited 0, some [104], some [101]⟩ : ProcessOutput).stdout.isSome =
      ((ProcessConfig.new ("ffmpeg".data)).capture_stdout &&
        !(([] : List Accessor).contains Accessor.stdout)) ∧
    (⟨ExitStatus.exited 0, some [104], some [101]⟩ : ProcessOutput).stderr.isSome =
      ((ProcessConfig.new ("ffmpeg".data)).capture_stderr &&
        !(([] : List Accessor).contains Accessor.stderr)) :=
  c6_capture_iff_requested_and_not_taken (ProcessConfig.new ("ffmpeg".data)) []
    ⟨0, ExitStatus.exited 0, [104], [101], false⟩
    ⟨ExitStatus.exited 0, some [104], some [101]⟩ (by decide)

/-- C7: the wait future of the source awaits child exit before draining
either pipe and then reads the two pipes sequentially; in the interleaving
model of that control flow, when the child still has cap+1 bytes to write to
each stream (one more than the pipe capacity), no reachable state ever
completes the read of both streams: the system deadlocks, refuting the
claimed concurrent drain. -/
theorem c7_sequential_drain_never_completes (cap : Nat) (s : DrainState)
    (h : Relation.ReflTransGen (DStep cap) (initDrain (cap + 1) (cap + 1)) s) :
    s.phase ≠ DrainPhase.doneAll := by
  intro hdone
  have hph := (drain_invariant cap s h).1
  rw [hdone] at hph
  exact absurd hph (by decide)

/-- C7 witness: with the common 64 KiB pipe capacity and 65537-byte outputs,
already the initial state instantiates the theorem. -/
theorem c7_witness : (initDrain 65537 65537).phase ≠ DrainPhase.doneAll :=
  c7_sequential_drain_never_completes 65536 (initDrain 65537 65537)
    Relation.ReflTransGen.refl

/-- C8: the duration parser is not total: on the inputs -5, inf and NaN the
plain-seconds branch parses an f64 and then panics inside
std::time::Duration::from_secs_f64 instead of returning a value or a parse
error; well-formed input such as 00:00:04.00 still yields a value. -/
theorem c8_duration_parser_panics :
    from_ffmpeg_format ("-5".data) = DurResult.panicked ∧
    from_ffmpeg_format ("inf".data) = DurResult.panicked ∧
    from_ffmpeg_format ("NaN".data) = DurResult.panicked ∧
    from_ffmpeg_format ("00:00:04.00".data) = DurResult.ok 4000000000 := by decide

/-- C10 (amended): for every line containing frame= on which parse_line does
not panic, parse_line returns Some snapshot (possibly with every field
absent) and stream_progress invokes the sink exactly once for that line. -/
theorem c10_frame_marker_gives_snapshot (s : Str)
    (h1 : containsSub frameMarker s = true)
    (h2 : Progress.parse_line s ≠ ParseLineResult.panicked) :
    ∃ p, Progress.parse_line s = ParseLineResult.ret (some p) ∧
      streamProgress [s] = StreamResult.done [p] := by
  cases hf : foldTokens emptyProgress (splitWs s) with
  | ok p =>
    refine ⟨p, ?_, ?_⟩
    · simp [Progress.parse_line, h1, hf]
    · simp [streamProgress, Progress.parse_line, h1, hf]
  | error e =>
    exfalso
    apply h2
    simp [Progress.parse_line, h1, hf]

/-- C10 counterexample: the line frame=1 time=-5 contains frame= but
parse_line panics on it (the time value -5 parses as a float and
Duration::from_secs_f64 panics on negative input), so no snapshot is
returned. -/
theorem c10_counterexample :
    Progress.parse_line ("frame=1 time=-5".data) = ParseLineResult.panicked := by decide

/-- C10 witness: ordinary log text that merely mentions frame= yields the
all-absent snapshot and one sink invocation. -/
theorem c10_witness :
    ∃ p, Progress.parse_line ("a frame= b".data) = ParseLineResult.ret (some p) ∧
      streamProgress [("a frame= b".data)] = StreamResult.done [p] :=
  c10_frame_marker_gives_snapshot ("a frame= b".data) (by decide) (by decide)

/-- C9: for every byte count n below 2^64 that is a whole multiple of 1024,
rendering n as the kB-suffixed progress token (decimal n / 1024 followed by
kB) and re-parsing it with the progress decoder's size rule (strip kB, parse
the integer, multiply by 1024) yields exactly n. -/
theorem c9_size_roundtrip (n : Nat) (h64 : n < 2 ^ 64) (hdvd : 1024 ∣ n) :
    sizeRule (renderSizeToken n) = some n := by
  obtain ⟨hne, hdig, hval⟩ := renderNat_spec (n / 1024)
  unfold renderSizeToken sizeRule
  rw [stripSuffix_append]
  show sizeValue (renderNat (n / 1024)) = some n
  unfold sizeValue
  rw [parseU64_digits _ hne hdig
    (by rw [hval]; exact lt_of_le_of_lt (Nat.div_le_self n 1024) h64)]
  rw [hval]
  show some (n / 1024 * 1024 % 2 ^ 64) = some n
  rw [Nat.div_mul_cancel hdvd, Nat.mod_eq_of_lt h64]

/-- C9 witness: the claim's example value 1048576 bytes round-trips through
the token 1024kB. -/
theorem c9_witness :
    sizeRule (renderSizeToken 1048576) = some 1048576 :=
  c9_size_roundtrip 1048576 (by norm_num) (by norm_num)
